import Mathlib

/-!
Shallow embedding of the core of sf-code-remediator (scanner rules,
prioritizer, fix strategies, fixer loop, verifier) used to settle the
claims about the natural-language specification.

JavaScript strings are modelled as `List Char`; JS regular expressions are
translated into executable character-level matching functions; the
filesystem touched by the fixer and verifier is modelled as a map from
paths to optional contents.  Every definition is translated from the
repository source; comments name the source file it comes from.
-/

namespace SF

/-- Convert a Lean string literal to the `List Char` representation. -/
def lstr (s : String) : List Char := s.data

/-- JS regex class `\s` restricted to the characters that occur in source
text (space, tab, newline, carriage return, vertical tab, form feed). -/
def jsIsSpace (c : Char) : Bool :=
  c = ' ' || c = '\t' || c = '\n' || c = '\r' || c = '\x0b' || c = '\x0c'

/-- JS regex class `\w` : ASCII letters, digits and underscore. -/
def isWordChar (c : Char) : Bool :=
  ('a' ≤ c && c ≤ 'z') || ('A' ≤ c && c ≤ 'Z') || ('0' ≤ c && c ≤ '9') || c = '_'

/-- Case-insensitive character comparison (regex flag `i`). -/
def ciEqChar (a b : Char) : Bool := a.toLower = b.toLower

/-- Source `isPre p s` : `p` is a literal prefix of `s` (case-sensitive). -/
def isPre : List Char → List Char → Bool
  | [], _ => true
  | _ :: _, [] => false
  | a :: as, b :: bs => a = b && isPre as bs

/-- Source `isPreCI p s` : `p` is a prefix of `s` up to case (regex flag `i`). -/
def isPreCI : List Char → List Char → Bool
  | [], _ => true
  | _ :: _, [] => false
  | a :: as, b :: bs => ciEqChar a b && isPreCI as bs

/-- Source `occurs p s` : `p` occurs as a contiguous substring of `s`
(JS `String.prototype.includes`). -/
def occurs (pat : List Char) : List Char → Bool
  | [] => pat.isEmpty
  | c :: rest => isPre pat (c :: rest) || occurs pat rest

/-- Case-insensitive substring occurrence. -/
def occursCI (pat : List Char) : List Char → Bool
  | [] => pat.isEmpty
  | c :: rest => isPreCI pat (c :: rest) || occursCI pat rest

/-- JS `content.split('\n')` : always returns at least one (possibly
empty) line; the separators are removed. -/
def splitNl : List Char → List (List Char)
  | [] => [[]]
  | c :: rest =>
    match splitNl rest with
    | [] => [[]]
    | l :: ls => if c = '\n' then [] :: l :: ls else (c :: l) :: ls

/-- JS `lines.join('\n')`. -/
def joinNl (ls : List (List Char)) : List Char := List.intercalate ['\n'] ls

/-- Split on an arbitrary separator character (JS `split(sep)`). -/
def splitOnChar (sep : Char) : List Char → List (List Char)
  | [] => [[]]
  | c :: rest =>
    match splitOnChar sep rest with
    | [] => [[]]
    | l :: ls => if c = sep then [] :: l :: ls else (c :: l) :: ls

/-- JS `String.prototype.trim()` over the modelled `\s` class. -/
def jsTrim (s : List Char) : List Char :=
  ((s.dropWhile jsIsSpace).reverse.dropWhile jsIsSpace).reverse

/-- Remove the trailing whitespace run (JS replace of the trailing
`\s+` run with the empty string). -/
def dropTrailingWs (s : List Char) : List Char :=
  (s.reverse.dropWhile jsIsSpace).reverse

/-- Index of the first occurrence of `pat` in `s`, if any. -/
def findSub (pat : List Char) : List Char → Option Nat
  | [] => if pat.isEmpty then some 0 else none
  | c :: cs =>
    if isPre pat (c :: cs) then some 0
    else (findSub pat cs).map (· + 1)

/-- JS `s.replace(pat, repl)` for a literal pattern: replace the first
occurrence of `pat` in `s` by `repl` (the replacements used by the code
contain no `$` escapes). -/
def replaceFirst (pat repl s : List Char) : List Char :=
  match findSub pat s with
  | none => s
  | some i => s.take i ++ repl ++ s.drop (i + pat.length)

/-- Regex `\s+` at the head of `s` : length of the (nonempty) leading
whitespace run. -/
def wsPlus (s : List Char) : Option Nat :=
  let n := (s.takeWhile jsIsSpace).length
  if n = 0 then none else some n

/-- Regex `\w+` at the head of `s` : length of the (nonempty) leading
word-character run. -/
def wordPlus (s : List Char) : Option Nat :=
  let n := (s.takeWhile isWordChar).length
  if n = 0 then none else some n

/-- A regex word boundary `\b` immediately before a word character:
satisfied at the start of the string or after a non-word character. -/
def boundaryOk : Option Char → Bool
  | none => true
  | some c => !isWordChar c

/-- A regex word boundary `\b` immediately after a word character:
satisfied at the end of the string or before a non-word character. -/
def boundaryAfter : List Char → Bool
  | [] => true
  | c :: _ => !isWordChar c

/-- Generic scanner for `String.prototype.matchAll` with a `g` regex:
`tryAt prev s` returns the match length at the current position (`prev`
is the preceding character, for `\b`).  Returns `(index, length)` pairs
of the non-overlapping matches, left to right.  `fuel` bounds recursion
and is called with `s.length + 1`, which always suffices because every
step consumes at least one character. -/
def scanMatches (tryAt : Option Char → List Char → Option Nat) :
    Nat → Option Char → Nat → List Char → List (Nat × Nat)
  | 0, _, _, _ => []
  | _ + 1, _, _, [] => []
  | fuel + 1, prev, pos, c :: cs =>
    match tryAt prev (c :: cs) with
    | some len =>
      if len = 0 then []
      else (pos, len) ::
        scanMatches tryAt fuel (((c :: cs).take len).getLast?) (pos + len)
          ((c :: cs).drop len)
    | none => scanMatches tryAt fuel (some c) (pos + 1) cs

/-- All matches of a pattern in `s` (non-overlapping, left to right). -/
def allMatches (tryAt : Option Char → List Char → Option Nat)
    (s : List Char) : List (Nat × Nat) :=
  scanMatches tryAt (s.length + 1) none 0 s

/-- Generic global regex replace built on the same scanning discipline as
`scanMatches` (JS `replace` with a `g` flag and a literal replacement). -/
def gReplace (tryAt : Option Char → List Char → Option Nat)
    (repl : List Char) : Nat → Option Char → List Char → List Char
  | 0, _, s => s
  | _ + 1, _, [] => []
  | fuel + 1, prev, c :: cs =>
    match tryAt prev (c :: cs) with
    | some len =>
      if len = 0 then c :: cs
      else repl ++ gReplace tryAt repl fuel (((c :: cs).take len).getLast?)
        ((c :: cs).drop len)
    | none => c :: gReplace tryAt repl fuel (some c) cs

/-- Run a global replace over a whole string. -/
def replaceAll (tryAt : Option Char → List Char → Option Nat)
    (repl s : List Char) : List Char :=
  gReplace tryAt repl (s.length + 1) none s

/-! ## Data model

`Finding`/`Violation` record, as produced by the rules
(src/src/scanner/rules/*).  `context` is the rule-specific payload; the
union of the shapes used by the six rules is modelled with optional
fields defaulting to `none`.  `line` is an `Int` because the fix
strategies guard against non-positive line numbers. -/

structure Context where
  operation : Option (List Char) := none
  sobject : Option (List Char) := none
  lineContent : List Char := []
  className : Option (List Char) := none
  trailingSpaces : Option Nat := none
  methodName : Option (List Char) := none
  complexity : Option Nat := none
  threshold : Option Nat := none
deriving DecidableEq

structure Violation where
  rule : List Char
  severity : List Char
  filePath : List Char
  line : Int
  column : Nat
  description : List Char
  autoFixable : Bool
  context : Option Context := none
  isTestCode : Bool := false
deriving DecidableEq

/-- Result of a fix strategy
(`{success: true, content, description}` or `{success: false, reason}`). -/
inductive FixResult where
  | ok (content : List Char) (description : List Char)
  | err (reason : List Char)
deriving DecidableEq

/-! ## Shared regex translations -/

/-- The four DML keywords, in JS-source order. -/
def dmlKws : List (List Char) :=
  [lstr "insert", lstr "update", lstr "delete", lstr "upsert"]

/-- Match of `/\b(insert|update|delete|upsert)\s+/i` at the current
position (`prev` carries the previous character for `\b`). -/
def dmlTry (prev : Option Char) (s : List Char) : Option Nat :=
  if !boundaryOk prev then none
  else
    dmlKws.findSome? fun kw =>
      if isPreCI kw s then
        match wsPlus (s.drop kw.length) with
        | some w => some (kw.length + w)
        | none => none
      else none

/-- Match of `/\[SELECT\s+/i` at the current position. -/
def selTry (_prev : Option Char) (s : List Char) : Option Nat :=
  if isPreCI (lstr "[select") s then
    match wsPlus (s.drop 7) with
    | some w => some (7 + w)
    | none => none
  else none

/-- Test of `/\bkw\b/i` anywhere in a string (keyword made of word
characters, so both boundaries reduce to non-word neighbours). -/
def wordTestCIAux (kw : List Char) : Option Char → List Char → Bool
  | _, [] => false
  | prev, c :: cs =>
    (boundaryOk prev && isPreCI kw (c :: cs) &&
      boundaryAfter ((c :: cs).drop kw.length)) ||
    wordTestCIAux kw (some c) cs

def wordTestCI (kw : List Char) (s : List Char) : Bool :=
  wordTestCIAux kw none s

/-- Test of `/\[SELECT\b/i` : the literal `[SELECT` followed by a word
boundary. -/
def testSelWordB : List Char → Bool
  | [] => false
  | c :: cs =>
    (isPreCI (lstr "[select") (c :: cs) &&
      boundaryAfter ((c :: cs).drop 7)) ||
    testSelWordB cs

/-- Match of `/WITH\s+SECURITY_ENFORCED/i` at the current position. -/
def wseAt (s : List Char) : Bool :=
  if isPreCI (lstr "with") s then
    match wsPlus (s.drop 4) with
    | some w => isPreCI (lstr "security_enforced") (s.drop (4 + w))
    | none => false
  else false

/-- Test of `/WITH\s+SECURITY_ENFORCED/i` anywhere in the line. -/
def testWSE : List Char → Bool
  | [] => false
  | c :: cs => wseAt (c :: cs) || testWSE cs

/-- Test of `/\[SELECT\s+.*?\]/i` on a single line (no newline inside a
line, so `.` never blocks): some occurrence of `[SELECT`, at least one
whitespace character after it, and a `]` somewhere later. -/
def selBrAt (s : List Char) : Bool :=
  if isPreCI (lstr "[select") s then
    match s.drop 7 with
    | c :: rest => jsIsSpace c && rest.contains ']'
    | [] => false
  else false

def testSelBr : List Char → Bool
  | [] => false
  | c :: cs => selBrAt (c :: cs) || testSelBr cs

/-- Regex `/Schema\.sObjectType\.\w+\.fields\.\w+\.method\(\)/` (case-sensitive)
at the current position, for a given method name. -/
def schemaFieldAt (method : List Char) (s : List Char) : Bool :=
  if isPre (lstr "Schema.sObjectType.") s then
    match wordPlus (s.drop 19) with
    | some n1 =>
      let r1 := s.drop (19 + n1)
      if isPre (lstr ".fields.") r1 then
        match wordPlus (r1.drop 8) with
        | some n2 =>
          isPre (['.'] ++ method ++ lstr "()") (r1.drop (8 + n2))
        | none => false
      else false
    | none => false
  else false

def schemaFieldTest (method : List Char) : List Char → Bool
  | [] => false
  | c :: cs => schemaFieldAt method (c :: cs) || schemaFieldTest method cs

/-- Regex `/Schema\.sObjectType\.\w+\.isDeletable\(\)/` (case-sensitive). -/
def schemaDeletableAt (s : List Char) : Bool :=
  if isPre (lstr "Schema.sObjectType.") s then
    match wordPlus (s.drop 19) with
    | some n1 => isPre (lstr ".isDeletable()") (s.drop (19 + n1))
    | none => false
  else false

def schemaDeletableTest : List Char → Bool
  | [] => false
  | c :: cs => schemaDeletableAt (c :: cs) || schemaDeletableTest cs

/-! ## Rule: ApexCRUDViolation (src/src/scanner/rules/apexCRUDViolation.js) -/

namespace ApexCRUDViolationRule

/-- The nine `securityCheckPatterns`, in source order, tested against one
line. -/
def securityCheckTest (line : List Char) : Bool :=
  testWSE line ||
  schemaFieldTest (lstr "isAccessible") line ||
  schemaFieldTest (lstr "isCreateable") line ||
  schemaFieldTest (lstr "isUpdateable") line ||
  schemaDeletableTest line ||
  occurs (lstr "isAccessible()") line ||
  occurs (lstr "isCreateable()") line ||
  occurs (lstr "isUpdateable()") line ||
  occurs (lstr "isDeletable()") line

/-- Source `hasSecurityCheckNearby(lines, currentIndex, patterns, range = 10)` :
any line with index in `[max(0, i-10), min(len, i+10))` passing one of
the patterns. -/
def hasSecurityCheckNearby (lines : List (List Char)) (i : Nat) : Bool :=
  let start := i - 10
  let stop := min lines.length (i + 10)
  ((lines.drop start).take (stop - start)).any securityCheckTest

/-- Source `extractSObject(line)` : group 2 of the first match of
`/\b(insert|update|delete|upsert)\s+(\w+)/i`, or null. -/
def extractSObjectAux : Option Char → List Char → Option (List Char)
  | _, [] => none
  | prev, c :: cs =>
    let here :=
      if !boundaryOk prev then none
      else
        dmlKws.findSome? fun kw =>
          if isPreCI kw (c :: cs) then
            match wsPlus ((c :: cs).drop kw.length) with
            | some w =>
              let word := ((c :: cs).drop (kw.length + w)).takeWhile isWordChar
              if word.isEmpty then none else some word
            | none => none
          else none
    match here with
    | some w => some w
    | none => extractSObjectAux (some c) cs

def extractSObject (line : List Char) : Option (List Char) :=
  extractSObjectAux none line

/-- Source `detectDMLOperation(line)`. -/
def detectDMLOperation (line : List Char) : List Char :=
  if wordTestCI (lstr "insert") line then lstr "insert"
  else if wordTestCI (lstr "update") line then lstr "update"
  else if wordTestCI (lstr "delete") line then lstr "delete"
  else if wordTestCI (lstr "upsert") line then lstr "upsert"
  else lstr "DML"

def ruleName : List Char := lstr "ApexCRUDViolation"

/-- One violation record for a match at column index `col0` on line
`i` (0-based); `opTag` is the `operation` of the matched pattern entry
(`DML` or `SOQL`). -/
def mkViolation (filePath line : List Char) (i col0 : Nat)
    (opTag : List Char) : Violation :=
  let sobject := extractSObject line
  let specificOp :=
    if opTag = lstr "DML" then detectDMLOperation line else opTag
  { rule := ruleName
    severity := lstr "Critical"
    filePath := filePath
    line := (i : Int) + 1
    column := col0 + 1
    description := specificOp ++ lstr " operation without CRUD/FLS check"
    autoFixable := opTag = lstr "SOQL" || sobject.isSome
    context := some { operation := some specificOp, sobject := sobject,
                      lineContent := jsTrim line } }

/-- The per-line body of `check` : for each of the two `dmlPatterns`
(in order), every match yields a violation unless a security check is
nearby. -/
def checkLine (filePath : List Char) (lines : List (List Char))
    (i : Nat) (line : List Char) : List Violation :=
  let dmlVs := (allMatches dmlTry line).filterMap fun m =>
    if hasSecurityCheckNearby lines i then none
    else some (mkViolation filePath line i m.1 (lstr "DML"))
  let soqlVs := (allMatches selTry line).filterMap fun m =>
    if hasSecurityCheckNearby lines i then none
    else some (mkViolation filePath line i m.1 (lstr "SOQL"))
  dmlVs ++ soqlVs

def check (filePath content : List Char) : List Violation :=
  let lines := splitNl content
  lines.enum.flatMap fun p => checkLine filePath lines p.1 p.2

end ApexCRUDViolationRule

/-! ## Class-declaration pattern
`/^(\s*)(public|global)\s+(abstract\s+)?(class|interface)\s+(\w+)/`
shared by the sharing rule (src/src/scanner/rules/apexSharingViolation.js)
and the sharing fix (src/src/fixer/fixStrategies/sharingFix.js).
The `(abstract\s+)?` group needs no backtracking: when it matches, the
remainder starts with `abstract`, which can never begin `class` or
`interface`, so skipping the group could not rescue a failed parse. -/

structure ClassDecl where
  indentation : List Char
  visibility : List Char
  abstractKw : List Char
  classType : List Char
  className : List Char
  /-- length of the whole match (group 0). -/
  matchLen : Nat
deriving DecidableEq

def optAbstract (s : List Char) : Option Nat :=
  if isPre (lstr "abstract") s then
    match wsPlus (s.drop 8) with
    | some w => some (8 + w)
    | none => none
  else none

def parseClassDecl (line : List Char) : Option ClassDecl :=
  let ind := line.takeWhile jsIsSpace
  let r0 := line.drop ind.length
  let visOpt :=
    if isPre (lstr "public") r0 then some (lstr "public")
    else if isPre (lstr "global") r0 then some (lstr "global")
    else none
  match visOpt with
  | none => none
  | some vis =>
    match wsPlus (r0.drop vis.length) with
    | none => none
    | some w1 =>
      let r2 := r0.drop (vis.length + w1)
      let absLen := (optAbstract r2).getD 0
      let absTxt := r2.take absLen
      let r3 := r2.drop absLen
      let ctOpt :=
        if isPre (lstr "class") r3 then some (lstr "class")
        else if isPre (lstr "interface") r3 then some (lstr "interface")
        else none
      match ctOpt with
      | none => none
      | some ct =>
        match wsPlus (r3.drop ct.length) with
        | none => none
        | some w2 =>
          let name := (r3.drop (ct.length + w2)).takeWhile isWordChar
          if name.isEmpty then none
          else some { indentation := ind, visibility := vis,
                      abstractKw := absTxt, classType := ct,
                      className := name,
                      matchLen := ind.length + vis.length + w1 + absLen +
                        ct.length + w2 + name.length }

/-! ## Rule: ApexSharingViolation
(src/src/scanner/rules/apexSharingViolation.js) -/

namespace ApexSharingViolationRule

/-- Test of `/\b(with sharing|without sharing|inherited sharing)\b/`
(case-sensitive) on one line. -/
def sharingKwAux : Option Char → List Char → Bool
  | _, [] => false
  | prev, c :: cs =>
    (boundaryOk prev &&
      ([lstr "with sharing", lstr "without sharing",
        lstr "inherited sharing"].any fun kw =>
        isPre kw (c :: cs) && boundaryAfter ((c :: cs).drop kw.length))) ||
    sharingKwAux (some c) cs

def sharingKwTest (line : List Char) : Bool := sharingKwAux none line

/-- Source `hasSharingKeyword(lines, classLineIndex)` : the declaration line or
up to 3 lines above it contains a sharing keyword. -/
def hasSharingKeyword (lines : List (List Char)) (i : Nat) : Bool :=
  let start := i - 3
  ((lines.drop start).take (i - start + 1)).any sharingKwTest

def ruleName : List Char := lstr "ApexSharingViolation"

def check (filePath content : List Char) : List Violation :=
  let lines := splitNl content
  lines.enum.flatMap fun p =>
    match parseClassDecl p.2 with
    | none => []
    | some g =>
      if hasSharingKeyword lines p.1 then []
      else
        -- the pattern is anchored, so match.index is 0 and the column 1
        [{ rule := ruleName
           severity := lstr "High"
           filePath := filePath
           line := (p.1 : Int) + 1
           column := 1
           description := lstr "Class \x27" ++ g.className ++
             lstr "\x27 missing sharing declaration"
           autoFixable := true
           context := some { className := some g.className,
                             lineContent := jsTrim p.2 } }]

end ApexSharingViolationRule

/-! ## Rule: AvoidDebugStatements
(src/src/scanner/rules/avoidDebugStatements.js, src/unnamed/part_001) -/

namespace AvoidDebugStatementsRule

/-- Match of `/System\.debug\s*\(/i` at the current position. -/
def debugTry (_prev : Option Char) (s : List Char) : Option Nat :=
  if isPreCI (lstr "system.debug") s then
    let r := s.drop 12
    let w := (r.takeWhile jsIsSpace).length
    match r.drop w with
    | '(' :: _ => some (12 + w + 1)
    | _ => none
  else none

/-- Source `isCommented(line, index)` : the text before the match contains
`//`. -/
def isCommented (line : List Char) (idx : Nat) : Bool :=
  occurs (lstr "//") (line.take idx)

def ruleName : List Char := lstr "AvoidDebugStatements"

def check (filePath content : List Char) : List Violation :=
  let lines := splitNl content
  lines.enum.flatMap fun p =>
    (allMatches debugTry p.2).filterMap fun m =>
      if isCommented p.2 m.1 then none
      else some
        { rule := ruleName
          severity := lstr "Low"
          filePath := filePath
          line := (p.1 : Int) + 1
          column := m.1 + 1
          description := lstr "System.debug() statement found"
          autoFixable := true
          context := some { lineContent := jsTrim p.2 } }

end AvoidDebugStatementsRule

/-! ## Rule: NoTrailingWhitespace
(src/src/scanner/rules/noTrailingWhitespace.js) -/

namespace NoTrailingWhitespaceRule

def ruleName : List Char := lstr "NoTrailingWhitespace"

def check (filePath content : List Char) : List Violation :=
  let lines := splitNl content
  lines.enum.flatMap fun p =>
    let line := p.2
    let trailing := (line.reverse.takeWhile jsIsSpace).length
    if line.length > 0 && trailing > 0 then
      [{ rule := ruleName
         severity := lstr "Info"
         filePath := filePath
         line := (p.1 : Int) + 1
         column := line.length - trailing + 1
         description := lstr "Line has " ++ (Nat.repr trailing).data ++
           lstr " trailing whitespace character(s)"
         autoFixable := true
         context := some { trailingSpaces := some trailing,
                           lineContent := line } }]
    else []

end NoTrailingWhitespaceRule

/-! ## Rule: ApexSOQLInjection
(src/src/scanner/rules/apexSOQLInjection.js) -/

namespace ApexSOQLInjectionRule

/-- Match of `/Database\.(query|countQuery|getQueryLocator)\s*\(/i` at the
current position. -/
def dbQueryTry (_prev : Option Char) (s : List Char) : Option Nat :=
  if isPreCI (lstr "database.") s then
    let r := s.drop 9
    [lstr "query", lstr "countQuery", lstr "getQueryLocator"].findSome?
      fun kw =>
        if isPreCI kw r then
          let r2 := r.drop kw.length
          let w := (r2.takeWhile jsIsSpace).length
          match r2.drop w with
          | '(' :: _ => some (9 + kw.length + w + 1)
          | _ => none
        else none
  else none

/-- One alternative of the injection pattern (a quote followed by
optional whitespace and a plus, or a plus followed by optional
whitespace and a quote) starting at the current position. -/
def quoteChar (c : Char) : Bool := c = '\x27' || c = '"'

def injPatAt : List Char → Bool
  | [] => false
  | c :: cs =>
    (quoteChar c &&
      (match cs.drop ((cs.takeWhile jsIsSpace).length) with
       | '+' :: _ => true
       | _ => false)) ||
    (c = '+' &&
      (match cs.drop ((cs.takeWhile jsIsSpace).length) with
       | q :: _ => quoteChar q
       | _ => false))

def injTest : List Char → Bool
  | [] => false
  | c :: cs => injPatAt (c :: cs) || injTest cs

/-- Source `hasPotentialInjection(statement)`. -/
def hasPotentialInjection (statement : List Char) : Bool :=
  statement.contains '+' && injTest statement

def ruleName : List Char := lstr "ApexSOQLInjection"

def check (filePath content : List Char) : List Violation :=
  let lines := splitNl content
  lines.enum.flatMap fun p =>
    -- getStatementLines returns the single current line, so the joined
    -- full statement is the line itself
    (allMatches dbQueryTry p.2).filterMap fun m =>
      if hasPotentialInjection p.2 then
        some
          { rule := ruleName
            severity := lstr "Critical"
            filePath := filePath
            line := (p.1 : Int) + 1
            column := m.1 + 1
            description := lstr "Dynamic SOQL with string concatenation detected - potential injection risk"
            autoFixable := false
            context := some { lineContent := jsTrim p.2 } }
      else none

end ApexSOQLInjectionRule

/-! ## Rule: CognitiveComplexity
(src/src/scanner/rules/cognitiveComplexity.js) -/

namespace CognitiveComplexityRule

/-- Tail `(\w+)\s+(\w+)\s*\(` of the method pattern, returning the method
name (group 4). -/
def parseMethodTail (r2 : List Char) : Option (List Char) :=
  let t := r2.takeWhile isWordChar
  if t.isEmpty then none
  else
    match wsPlus (r2.drop t.length) with
    | none => none
    | some w =>
      let r3 := r2.drop (t.length + w)
      let name := r3.takeWhile isWordChar
      if name.isEmpty then none
      else
        let r4 := r3.drop name.length
        let w2 := (r4.takeWhile jsIsSpace).length
        match r4.drop (w2) with
        | '(' :: _ => some name
        | _ => none

/-- Regex `/^\s*(public|private|protected|global)\s+(static\s+)?(\w+)\s+(\w+)\s*\(/` :
if taking the optional `(static\s+)` group makes the tail fail, the regex
engine backtracks and retries with the group skipped, which is modelled
by the second `parseMethodTail` call. -/
def parseMethodDecl (line : List Char) : Option (List Char) :=
  let ind := line.takeWhile jsIsSpace
  let r0 := line.drop ind.length
  let visOpt :=
    [lstr "public", lstr "private", lstr "protected",
     lstr "global"].findSome? fun v => if isPre v r0 then some v else none
  match visOpt with
  | none => none
  | some vis =>
    match wsPlus (r0.drop vis.length) with
    | none => none
    | some w1 =>
      let r2 := r0.drop (vis.length + w1)
      let withStatic :=
        if isPre (lstr "static") r2 then
          match wsPlus (r2.drop 6) with
          | some ws => parseMethodTail (r2.drop (6 + ws))
          | none => none
        else none
      match withStatic with
      | some n => some n
      | none => parseMethodTail r2

/-- Per-line brace pass of `extractMethodBody` : updated
`(braceCount, started)` after the line. -/
def braceScan (line : List Char) (bc : Int) (started : Bool) : Int × Bool :=
  line.foldl
    (fun st c =>
      if c = '\x7b' then (st.1 + 1, true)
      else if c = '\x7d' then (st.1 - 1, st.2)
      else st) (bc, started)

/-- The line-collecting loop of `extractMethodBody` : a line is kept once
brace counting has started, and the loop stops when the count returns to
zero after having started. -/
def extractBody : List (List Char) → Int → Bool → List (List Char)
  | [], _, _ => []
  | l :: rest, bc, started =>
    let st := braceScan l bc started
    let keep := if st.2 then [l] else []
    if st.2 && st.1 = 0 then keep
    else keep ++ extractBody rest st.1 st.2

def extractMethodBody (lines : List (List Char)) (startIndex : Nat) :
    List Char :=
  joinNl (extractBody (lines.drop startIndex) 0 false)

/-- Match of `/\bkw\s*\(/` (case-sensitive) at the current position, used
for the `if`, `for`, `while` and `catch` complexity patterns. -/
def kwParenTry (kw : List Char) (prev : Option Char) (s : List Char) :
    Option Nat :=
  if boundaryOk prev && isPre kw s then
    let r := s.drop kw.length
    let w := (r.takeWhile jsIsSpace).length
    match r.drop w with
    | '(' :: _ => some (kw.length + w + 1)
    | _ => none
  else none

/-- Match of `/\belse\s+if\b/` at the current position. -/
def elseIfTry (prev : Option Char) (s : List Char) : Option Nat :=
  if boundaryOk prev && isPre (lstr "else") s then
    match wsPlus (s.drop 4) with
    | some w =>
      if isPre (lstr "if") (s.drop (4 + w)) &&
          boundaryAfter (s.drop (4 + w + 2)) then some (4 + w + 2)
      else none
    | none => none
  else none

/-- Match of `/\?\s*.*\s*:/` at the current position, with regex
backtracking order: the later atoms give back first, so the whitespace
run before `:` shrinks before the dot run, which shrinks before the
whitespace run after `?`.  `\s` may cross newlines, `.` may not. -/
def ternarySearch (rest : List Char) : Option Nat :=
  let w := (rest.takeWhile jsIsSpace).length
  (List.range (w + 1)).reverse.findSome? fun s1 =>
    let r1 := rest.drop s1
    if (rest.take s1).all jsIsSpace then
      let dmax := (r1.takeWhile (fun c => c ≠ '\n')).length
      (List.range (dmax + 1)).reverse.findSome? fun d =>
        let r2 := r1.drop d
        let s2max := (r2.takeWhile jsIsSpace).length
        (List.range (s2max + 1)).reverse.findSome? fun s2 =>
          match r2.drop s2 with
          | ':' :: _ => some (s1 + d + s2 + 1)
          | _ => none
    else none

def ternaryTry (_prev : Option Char) (s : List Char) : Option Nat :=
  match s with
  | '?' :: rest => (ternarySearch rest).map (· + 1)
  | _ => none

/-- Source `calculateComplexity(methodBody)` : sum over the six patterns of the
number of global matches in the body. -/
def calculateComplexity (body : List Char) : Nat :=
  (allMatches (kwParenTry (lstr "if")) body).length +
  (allMatches elseIfTry body).length +
  (allMatches (kwParenTry (lstr "for")) body).length +
  (allMatches (kwParenTry (lstr "while")) body).length +
  (allMatches (kwParenTry (lstr "catch")) body).length +
  (allMatches ternaryTry body).length

def threshold : Nat := 15

def ruleName : List Char := lstr "CognitiveComplexity"

def check (filePath content : List Char) : List Violation :=
  let lines := splitNl content
  lines.enum.flatMap fun p =>
    match parseMethodDecl p.2 with
    | none => []
    | some methodName =>
      let cx := calculateComplexity (extractMethodBody lines p.1)
      if cx > threshold then
        -- the pattern is anchored, so match.index is 0 and the column 1
        [{ rule := ruleName
           severity := lstr "Moderate"
           filePath := filePath
           line := (p.1 : Int) + 1
           column := 1
           description := lstr "Method \x27" ++ methodName ++
             lstr "\x27 has cognitive complexity of " ++
             (Nat.repr cx).data ++ lstr " (threshold: " ++
             (Nat.repr threshold).data ++ lstr ")"
           autoFixable := false
           context := some { methodName := some methodName,
                             complexity := some cx,
                             threshold := some threshold } }]
      else []

end CognitiveComplexityRule

/-! ## Scanner (src/src/scanner/apexScanner.js, src/unnamed/part_002)

Directory walking and file reading are I/O; the file tree is modelled as
a list of file paths plus a map from paths to optional contents.  A path
whose content is missing is skipped (in the JS source an unreadable file
aborts the scan with a thrown error - that error path is not modelled). -/

/-- A filesystem: map from path to content. -/
def FSMap : Type := List Char → Option (List Char)

def fsSet (fs : FSMap) (p c : List Char) : FSMap :=
  fun q => if q = p then some c else fs q

def fsErase (fs : FSMap) (p : List Char) : FSMap :=
  fun q => if q = p then none else fs q

structure ScanResults where
  filesScanned : Nat
  totalViolations : Nat
  violations : List Violation
  fileViolations : List (List Char × List Violation)
  violationsByRule : List (List Char × List Violation)
  violationsBySeverity : List (List Char × List Violation)

namespace ApexScanner

/-- Append `v` to the group of its key in an insertion-ordered
association list (the object-building loops of `groupByRule` and
`groupByFile`). -/
def addToGroup (key : Violation → List Char)
    (g : List (List Char × List Violation)) (v : Violation) :
    List (List Char × List Violation) :=
  match g with
  | [] => [(key v, [v])]
  | e :: rest =>
    if e.1 = key v then (e.1, e.2 ++ [v]) :: rest
    else e :: addToGroup key rest v

def groupByRule (vs : List Violation) :
    List (List Char × List Violation) :=
  vs.foldl (addToGroup (·.rule)) []

/-- Source `groupBySeverity` : the five fixed buckets in declaration order; a
violation with an unknown (or empty, hence falsy) severity lands in
`Info`. -/
def groupBySeverity (vs : List Violation) :
    List (List Char × List Violation) :=
  [(lstr "Critical", vs.filter (fun v => v.severity = lstr "Critical")),
   (lstr "High", vs.filter (fun v => v.severity = lstr "High")),
   (lstr "Moderate", vs.filter (fun v => v.severity = lstr "Moderate")),
   (lstr "Low", vs.filter (fun v => v.severity = lstr "Low")),
   (lstr "Info", vs.filter (fun v =>
     ¬(v.severity = lstr "Critical" ∨ v.severity = lstr "High" ∨
       v.severity = lstr "Moderate" ∨ v.severity = lstr "Low")))]

/-- Source `isTestClass(filePath, content)` : file name (text after the last
`/` and the last `\`) contains `test` case-insensitively, or the content
matches `/@istest(\s*\(.*?\))?/i`, whose optional group never affects
the test, leaving a case-insensitive search for `@istest`. -/
def lastComponent (p : List Char) : List Char :=
  ((splitOnChar '\\' ((splitOnChar '/' p).getLastD [])).getLastD [])

def isTestClass (filePath content : List Char) : Bool :=
  occurs (lstr "test") ((lastComponent filePath).map Char.toLower) ||
  occursCI (lstr "@istest") content

/-- The fixed rule list of the scanner constructor, applied in order. -/
def rulesCheck (filePath content : List Char) : List Violation :=
  ApexCRUDViolationRule.check filePath content ++
  ApexSharingViolationRule.check filePath content ++
  AvoidDebugStatementsRule.check filePath content ++
  NoTrailingWhitespaceRule.check filePath content ++
  ApexSOQLInjectionRule.check filePath content ++
  CognitiveComplexityRule.check filePath content

/-- Source `scanFile` : run every rule; in a test class every violation is
marked as test code and made non-auto-fixable. -/
def scanFile (filePath content : List Char) : List Violation :=
  let vs := rulesCheck filePath content
  if isTestClass filePath content then
    vs.map fun v => { v with isTestCode := true, autoFixable := false }
  else vs

/-- Source `scan()` : `paths` is the listing produced by `findApexFiles`
(files with the domain extension, test classes skipped unless
`includeTests`). -/
def scan (includeTests : Bool) (paths : List (List Char)) (fs : FSMap) :
    ScanResults :=
  let files := paths.filterMap fun p => (fs p).map fun c => (p, c)
  let scanned := files.filter fun e =>
    !(isTestClass e.1 e.2 && !includeTests)
  let fvs := scanned.map fun e => (e.1, scanFile e.1 e.2)
  let violations := (fvs.map (·.2)).flatten
  { filesScanned := paths.length
    totalViolations := violations.length
    violations := violations
    fileViolations := fvs
    violationsByRule := groupByRule violations
    violationsBySeverity := groupBySeverity violations }

end ApexScanner

/-! ## Prioritizer (src/src/scanner/prioritizer.js) -/

namespace Prioritizer

inductive TierKey where
  | TIER1_CRITICAL
  | TIER2_IMPORTANT
  | TIER3_CLEANUP
deriving DecidableEq

/-- Rule lists of the three `tierDefinitions`. -/
def tier1Rules : List (List Char) :=
  [lstr "ApexCRUDViolation", lstr "ApexFLSViolation",
   lstr "ApexSharingViolation", lstr "ApexSOQLInjection"]

def tier2Rules : List (List Char) :=
  [lstr "CognitiveComplexity", lstr "OperationWithLimitsInLoop",
   lstr "ExcessiveDML", lstr "NestedLogic"]

def tier3Rules : List (List Char) :=
  [lstr "NoTrailingWhitespace", lstr "AvoidDebugStatements",
   lstr "MissingApexDoc", lstr "UnusedVariable"]

/-- The reverse lookup map `ruleTierMap` built from the tier
definitions (the rule lists are disjoint, so build order is
irrelevant). -/
def ruleTierMap (rule : List Char) : Option TierKey :=
  if tier1Rules.contains rule then some .TIER1_CRITICAL
  else if tier2Rules.contains rule then some .TIER2_IMPORTANT
  else if tier3Rules.contains rule then some .TIER3_CLEANUP
  else none

/-- The per-violation branch of `classifyByTier` : table lookup with
severity fallback for unmapped rules. -/
def tierKeyOf (v : Violation) : TierKey :=
  match ruleTierMap v.rule with
  | some t => t
  | none =>
    if v.severity = lstr "Critical" || v.severity = lstr "High" then
      .TIER1_CRITICAL
    else if v.severity = lstr "Moderate" then .TIER2_IMPORTANT
    else .TIER3_CLEANUP

structure TierClassified where
  t1 : List Violation
  t2 : List Violation
  t3 : List Violation
deriving DecidableEq

/-- Loop body of `classifyByTier` : push the violation onto the bucket
selected by `tierKeyOf`. -/
def classifyStep (acc : TierClassified) (v : Violation) : TierClassified :=
  match tierKeyOf v with
  | .TIER1_CRITICAL => { acc with t1 := acc.t1 ++ [v] }
  | .TIER2_IMPORTANT => { acc with t2 := acc.t2 ++ [v] }
  | .TIER3_CLEANUP => { acc with t3 := acc.t3 ++ [v] }

/-- Source `classifyByTier(violations)`. -/
def classifyByTier (vs : List Violation) : TierClassified :=
  vs.foldl classifyStep ⟨[], [], []⟩

/-- Membership test of one tier bucket, as a Boolean predicate. -/
def inTier (k : TierKey) (v : Violation) : Bool := decide (tierKeyOf v = k)

end Prioritizer

/-! ## Fix strategy: CRUDFix, wired variant
(src/src/fixer/fixStrategies/crudFix.js, imported by apexFixer.js) -/

namespace CrudFixJs

def detectOperation (line : List Char) : List Char :=
  if wordTestCI (lstr "insert") line then lstr "insert"
  else if wordTestCI (lstr "update") line then lstr "update"
  else if wordTestCI (lstr "delete") line then lstr "delete"
  else if wordTestCI (lstr "upsert") line then lstr "upsert"
  else if testSelWordB line then lstr "read"
  else lstr "access"

/-- Source `generateSecurityCheck(sobject, operation)` : this variant returns
the accessibility check for `read` and for the default branch, so the
result is never null. -/
def generateSecurityCheck (sobject operation : List Char) : List Char :=
  if operation = lstr "insert" then
    lstr "if (!Schema.sObjectType." ++ sobject ++
      lstr ".isCreateable()) \x7b\n    throw new System.NoAccessException();\n\x7d"
  else if operation = lstr "update" then
    lstr "if (!Schema.sObjectType." ++ sobject ++
      lstr ".isUpdateable()) \x7b\n    throw new System.NoAccessException();\n\x7d"
  else if operation = lstr "delete" then
    lstr "if (!Schema.sObjectType." ++ sobject ++
      lstr ".isDeletable()) \x7b\n    throw new System.NoAccessException();\n\x7d"
  else if operation = lstr "upsert" then
    lstr "if (!Schema.sObjectType." ++ sobject ++
      lstr ".isCreateable() || !Schema.sObjectType." ++ sobject ++
      lstr ".isUpdateable()) \x7b\n    throw new System.NoAccessException();\n\x7d"
  else
    lstr "if (!Schema.sObjectType." ++ sobject ++
      lstr ".isAccessible()) \x7b\n    throw new System.NoAccessException();\n\x7d"

/-- Source `getIndentation(line)` : the leading `\s*` run. -/
def getIndentation (line : List Char) : List Char :=
  line.takeWhile jsIsSpace

/-- Source `CRUDFix.apply(content, violation)` of the wired variant: requires a
resolvable SObject for every operation, including reads. -/
def apply (content : List Char) (v : Violation) : FixResult :=
  let lines := splitNl content
  let lineIndex : Int := v.line - 1
  if lineIndex < 0 ∨ (lines.length : Int) ≤ lineIndex then
    .err (lstr "Invalid line number")
  else
    let li := lineIndex.toNat
    let line := lines.getD li []
    let sobjOk :=
      match v.context with
      | none => none
      | some ctx =>
        match ctx.sobject with
        | none => none
        | some s => if s.isEmpty then none else some s
    match sobjOk with
    | none => .err (lstr "Cannot determine SObject type")
    | some sobject =>
      let operation := detectOperation line
      let checkCode := generateSecurityCheck sobject operation
      if checkCode.isEmpty then .err (lstr "Cannot generate security check")
      else
        let indentation := getIndentation line
        let secLines := (splitNl checkCode).map (fun l => indentation ++ l)
        .ok (joinNl (lines.take li ++ secLines ++ lines.drop li))
          (lstr "Added " ++ operation ++ lstr " security check for " ++
            sobject)

end CrudFixJs

/-! ## Fix strategy: CRUDFix, read-branch variant (src/unnamed/part_000)

The variant of the same class present in the repository that handles
SOQL/read findings by injecting `WITH SECURITY_ENFORCED` before any
SObject requirement; `generateSecurityCheck` returns null for unknown
operations. -/

namespace Part000

def detectOperation (line : List Char) : List Char :=
  if wordTestCI (lstr "insert") line then lstr "insert"
  else if wordTestCI (lstr "update") line then lstr "update"
  else if wordTestCI (lstr "delete") line then lstr "delete"
  else if wordTestCI (lstr "upsert") line then lstr "upsert"
  else if testSelWordB line then lstr "SOQL"
  else lstr "access"

def generateSecurityCheck (sobject operation : List Char) :
    Option (List Char) :=
  if operation = lstr "insert" then some
    (lstr "if (!Schema.sObjectType." ++ sobject ++
      lstr ".isCreateable()) \x7b\n    throw new System.NoAccessException();\n\x7d")
  else if operation = lstr "update" then some
    (lstr "if (!Schema.sObjectType." ++ sobject ++
      lstr ".isUpdateable()) \x7b\n    throw new System.NoAccessException();\n\x7d")
  else if operation = lstr "delete" then some
    (lstr "if (!Schema.sObjectType." ++ sobject ++
      lstr ".isDeletable()) \x7b\n    throw new System.NoAccessException();\n\x7d")
  else if operation = lstr "upsert" then some
    (lstr "if (!Schema.sObjectType." ++ sobject ++
      lstr ".isCreateable() || !Schema.sObjectType." ++ sobject ++
      lstr ".isUpdateable()) \x7b\n    throw new System.NoAccessException();\n\x7d")
  else none

/-- Expression `(context && context.operation) || this.detectOperation(line)` :
an absent context, an absent operation field, or an empty (falsy)
operation string all fall back to `detectOperation`. -/
def opTypeOf (v : Violation) (line : List Char) : List Char :=
  match v.context with
  | some ctx =>
    match ctx.operation with
    | some o => if o.isEmpty then detectOperation line else o
    | none => detectOperation line
  | none => detectOperation line

def getIndentation (line : List Char) : List Char :=
  line.takeWhile jsIsSpace

/-- Source `CRUDFix.apply(content, violation)` of the part_000 variant. -/
def apply (content : List Char) (v : Violation) : FixResult :=
  let lines := splitNl content
  let lineIndex : Int := v.line - 1
  if lineIndex < 0 ∨ (lines.length : Int) ≤ lineIndex then
    .err (lstr "Invalid line number")
  else
    let li := lineIndex.toNat
    let line := lines.getD li []
    let opType := opTypeOf v line
    if opType = lstr "SOQL" ∨ opType = lstr "read" then
      if testWSE line then
        .err (lstr "WITH SECURITY_ENFORCED already present")
      else if !testSelBr line then
        .err (lstr "Could not parse SOQL query")
      else
        .ok (joinNl (lines.set li
            (replaceFirst [']'] (lstr " WITH SECURITY_ENFORCED]") line)))
          (lstr "Added WITH SECURITY_ENFORCED to SOQL query")
    else
      let sobjOk :=
        match v.context with
        | none => none
        | some ctx =>
          match ctx.sobject with
          | none => none
          | some s => if s.isEmpty then none else some s
      match sobjOk with
      | none => .err (lstr "Cannot determine SObject type - manual fix required")
      | some sobject =>
        -- `if (!checkCode)` : the only falsy value generateSecurityCheck
        -- can produce is null, covered by the none branch
        match generateSecurityCheck sobject opType with
        | none => .err (lstr "Cannot generate security check")
        | some checkCode =>
          let indentation := getIndentation line
          let secLines := (splitNl checkCode).map
            (fun l => indentation ++ l)
          .ok (joinNl (lines.take li ++ secLines ++ lines.drop li))
            (lstr "Added " ++ opType ++ lstr " security check for " ++
              sobject)

end Part000

/-! ## Fix strategy: SharingFix
(src/src/fixer/fixStrategies/sharingFix.js) -/

namespace SharingFix

/-- Source `SharingFix.apply(content, violation)` : the matched prefix (group 0
of the class-declaration pattern) is replaced by the rebuilt declaration
with `with sharing` inserted; `line.replace` substitutes the first
occurrence of the matched text, which is the prefix of the line. -/
def apply (content : List Char) (v : Violation) : FixResult :=
  let lines := splitNl content
  let lineIndex : Int := v.line - 1
  if lineIndex < 0 ∨ (lines.length : Int) ≤ lineIndex then
    .err (lstr "Invalid line number")
  else
    let li := lineIndex.toNat
    let line := lines.getD li []
    match parseClassDecl line with
    | none => .err (lstr "Cannot parse class declaration")
    | some g =>
      let newLine := g.indentation ++ g.visibility ++
        lstr " with sharing " ++ g.abstractKw ++ g.classType ++
        lstr " " ++ g.className
      .ok (joinNl (lines.set li
          (replaceFirst (line.take g.matchLen) newLine line)))
        (lstr "Added \x27with sharing\x27 to class " ++ g.className)

end SharingFix

/-! ## Fix strategy: WhitespaceFix
(src/src/fixer/fixStrategies/whitespaceFix.js, second class in
src/src/fixer/fixStrategies/sharingFix.js of the source bundle) -/

namespace WhitespaceFix

def apply (content : List Char) (v : Violation) : FixResult :=
  let lines := splitNl content
  let lineIndex : Int := v.line - 1
  if lineIndex < 0 ∨ (lines.length : Int) ≤ lineIndex then
    .err (lstr "Invalid line number")
  else
    let li := lineIndex.toNat
    let line := lines.getD li []
    .ok (joinNl (lines.set li (dropTrailingWs line)))
      (lstr "Removed trailing whitespace")

end WhitespaceFix

/-! ## Fix strategy: DebugFix
(src/src/fixer/fixStrategies/debugFix.js, second class in the
apexFixer.js source bundle) -/

namespace DebugFix

/-- Match of `/System\.debug\s*\([^)]*\)\s*;?/i` at the current
position: the greedy `[^)]*` runs to the next `)` (fails without one),
then trailing whitespace and an optional semicolon are absorbed. -/
def debugCallTry (_prev : Option Char) (s : List Char) : Option Nat :=
  if isPreCI (lstr "system.debug") s then
    let r := s.drop 12
    let w := (r.takeWhile jsIsSpace).length
    match r.drop w with
    | '(' :: r2 =>
      let inner := (r2.takeWhile (fun c => c ≠ ')')).length
      match r2.drop inner with
      | ')' :: r3 =>
        let w2 := (r3.takeWhile jsIsSpace).length
        let semi :=
          match r3.drop w2 with
          | ';' :: _ => 1
          | _ => 0
        some (12 + w + 1 + inner + 1 + w2 + semi)
      | _ => none
    | _ => none
  else none

def apply (content : List Char) (v : Violation) : FixResult :=
  let lines := splitNl content
  let lineIndex : Int := v.line - 1
  if lineIndex < 0 ∨ (lines.length : Int) ≤ lineIndex then
    .err (lstr "Invalid line number")
  else
    let li := lineIndex.toNat
    let line := lines.getD li []
    if isPre (lstr "//") (jsTrim line) then
      .err (lstr "Already commented")
    else
      let newLine := replaceAll debugCallTry
        (lstr "// System.debug removed") line
      .ok (joinNl (lines.set li newLine))
        (lstr "Removed System.debug() statement")

end DebugFix

/-! ## Fixer (src/src/fixer/apexFixer.js)

The in-memory per-file part of `ApexFixer.fix` : grouping by file,
sorting by descending line number, and applying strategies against the
working copy.  File system effects (backup, write-back) surround this
pure part in the source. -/

namespace ApexFixer

/-- Tier 3 (cleanup) rule names of the fixer constructor; read nowhere
in `fix()` itself. -/
def tier3Rules : List (List Char) :=
  [lstr "NoTrailingWhitespace", lstr "AvoidDebugStatements",
   lstr "MissingApexDoc", lstr "UnusedVariable"]

/-- Conditionally fixable rule names of the constructor; also unread in
`fix()`. -/
def conditionallyFixableRules : List (List Char) :=
  [lstr "ApexCRUDViolation", lstr "ApexSharingViolation"]

/-- Source `nonAutoFixableRules` : rules never auto-fixed. -/
def nonAutoFixableRules : List (List Char) :=
  [lstr "ApexSOQLInjection", lstr "CognitiveComplexity",
   lstr "OperationWithLimitsInLoop"]

/-- The strategy table `fixStrategies`, reified as a tagged dispatch. -/
inductive Strategy where
  | crud
  | sharing
  | debug
  | whitespace
deriving DecidableEq

def fixStrategies (rule : List Char) : Option Strategy :=
  if rule = lstr "ApexCRUDViolation" then some .crud
  else if rule = lstr "ApexSharingViolation" then some .sharing
  else if rule = lstr "AvoidDebugStatements" then some .debug
  else if rule = lstr "NoTrailingWhitespace" then some .whitespace
  else none

def runStrategy : Strategy → List Char → Violation → FixResult
  | .crud, c, v => CrudFixJs.apply c v
  | .sharing, c, v => SharingFix.apply c v
  | .debug, c, v => DebugFix.apply c v
  | .whitespace, c, v => WhitespaceFix.apply c v

/-- Source `groupByFile(violations)` : insertion-ordered grouping by file
path. -/
def groupByFile (vs : List Violation) :
    List (List Char × List Violation) :=
  vs.foldl (ApexScanner.addToGroup (·.filePath)) []

/-- Association-list lookup with the `|| []` default used throughout the
source. -/
def lookupFV (m : List (List Char × List Violation)) (p : List Char) :
    List Violation :=
  match m.find? (fun e => e.1 == p) with
  | some e => e.2
  | none => []

/-- Comparator `(a, b) => b.line - a.line` as a relation: `a` may come
before `b` when `b.line ≤ a.line`. -/
def lineGE (a b : Violation) : Prop := b.line ≤ a.line

instance : DecidableRel lineGE := fun a b => Int.decLe b.line a.line

instance : IsTotal Violation lineGE :=
  ⟨fun a b => (Int.le_total b.line a.line).imp (fun h => h) (fun h => h)⟩

instance : IsTrans Violation lineGE :=
  ⟨fun _ _ _ hab hbc => le_trans hbc hab⟩

/-- Source `fileViolations.sort((a, b) => b.line - a.line)` : JS `Array.sort`
is stable (ES2019), and a stable sort for a total preorder is unique,
so it is modelled by stable insertion sort under `lineGE`. -/
def sortViolations (vs : List Violation) : List Violation :=
  vs.insertionSort lineGE

/-- Adjacent-pairs check that a processed sequence is in strictly
descending line order. -/
def strictDescByLine : List Violation → Bool
  | [] => true
  | [_] => true
  | a :: b :: rest => decide (b.line < a.line) && strictDescByLine (b :: rest)

/-- Per-file working state of the `fix` loop. -/
structure FixerState where
  content : List Char
  modified : Bool
  fixed : List (Violation × List Char)
  failed : List (Violation × List Char)
deriving DecidableEq

/-- The body of the inner `for (const violation of sortedViolations)`
loop: skip non-fixable findings, fail never-auto-fixable rules, run the
strategy when one is registered (a rule with no strategy entry falls
through silently), thread the working content through successes. -/
def applyStep (st : FixerState) (v : Violation) : FixerState :=
  if !v.autoFixable then st
  else if nonAutoFixableRules.contains v.rule then
    { st with failed := st.failed ++
        [(v, lstr "Rule not eligible for auto-fix")] }
  else
    match fixStrategies v.rule with
    | none => st
    | some strat =>
      match runStrategy strat st.content v with
      | .ok c d =>
        { st with content := c, modified := true,
                  fixed := st.fixed ++ [(v, d)] }
      | .err r => { st with failed := st.failed ++ [(v, r)] }

/-- The per-file part of `fix` : sort the findings of this file by descending
line number, then fold the strategy applications over the working
copy. -/
def processFile (content : List Char) (fvs : List Violation) : FixerState :=
  (sortViolations fvs).foldl applyStep ⟨content, false, [], []⟩

/-- Source `fix` output shape `{fixed, failed, updatedFiles}`. -/
structure FixOutput where
  fixed : List (Violation × List Char)
  failed : List (Violation × List Char)
  updatedFiles : List (List Char)

end ApexFixer

/-! ## Verifier (src/src/verifier/verifier.js) -/

namespace Verifier

/-- The backup sibling path `<path>.backup`. -/
def backupPath (p : List Char) : List Char := p ++ lstr ".backup"

/-- Source `violationStillExists(newViolations, originalViolation)`. -/
def violationStillExists (newViolations : List Violation)
    (ov : Violation) : Bool :=
  newViolations.any fun v =>
    v.rule == ov.rule && v.filePath == ov.filePath &&
      (v.line - ov.line).natAbs ≤ 5

/-- Source `findIntroducedViolations(originalViolations, newViolations)` : the
new findings with no pre-fix finding of the same rule within 5 lines. -/
def findIntroducedViolations (origVs newVs : List Violation) :
    List Violation :=
  newVs.filter fun nv =>
    !(origVs.any fun v =>
      v.rule == nv.rule && (v.line - nv.line).natAbs ≤ 5)

/-- Source `rollbackFile(filePath)` : copy the backup over the live file and
delete the backup.  The copy succeeds exactly when the backup exists;
on failure the filesystem is untouched and false is returned. -/
def rollbackFile (fs : FSMap) (p : List Char) : FSMap × Bool :=
  match fs (backupPath p) with
  | some c => (fsErase (fsSet fs p c) (backupPath p), true)
  | none => (fs, false)

structure VerifyState where
  newViolations : List Violation
  rollbacks : List (List Char × List Char × Nat)
  fs : FSMap

/-- The `for (const filePath of fixResults.updatedFiles)` loop: a file
with introduced regressions is rolled back, and a rollback entry
`(filePath, reason, violationsIntroduced)` is recorded when the rollback
succeeded. -/
def verifyFiles (ofv nfv : List (List Char × List Violation)) :
    List (List Char) → VerifyState → VerifyState
  | [], st => st
  | f :: rest, st =>
    let introduced := findIntroducedViolations
      (ApexFixer.lookupFV ofv f) (ApexFixer.lookupFV nfv f)
    if introduced.isEmpty then verifyFiles ofv nfv rest st
    else
      let r := rollbackFile st.fs f
      let rbs :=
        if r.2 then st.rollbacks ++
          [(f, lstr "Introduced new violations", introduced.length)]
        else st.rollbacks
      verifyFiles ofv nfv rest
        ⟨st.newViolations ++ introduced, rbs, r.1⟩

structure VerifyOutcome where
  verified : List (Violation × List Char)
  newViolations : List Violation
  rollbacks : List (List Char × List Char × Nat)
  fs : FSMap

/-- Source `verify(originalScanResults, fixResults)` over a filesystem state:
no-op when nothing was updated; otherwise re-scan the tree with a fresh
scanner (default options, so test classes excluded), mark fixed items
whose violation no longer exists nearby as verified, then walk the
updated files rolling back regressions. -/
def verify (paths : List (List Char)) (fs : FSMap)
    (orig : ScanResults) (fr : ApexFixer.FixOutput) : VerifyOutcome :=
  if fr.updatedFiles.isEmpty then ⟨[], [], [], fs⟩
  else
    let newScan := ApexScanner.scan false paths fs
    let verified := fr.fixed.filter fun item =>
      !(violationStillExists newScan.violations item.1)
    let st := verifyFiles orig.fileViolations newScan.fileViolations
      fr.updatedFiles ⟨[], [], fs⟩
    ⟨verified, st.newViolations, st.rollbacks, st.fs⟩

end Verifier

/-! ## Properties of the prioritizer partition -/

lemma classify_go (vs : List Violation) (acc : Prioritizer.TierClassified) :
    vs.foldl Prioritizer.classifyStep acc =
      ⟨acc.t1 ++ vs.filter (Prioritizer.inTier .TIER1_CRITICAL),
       acc.t2 ++ vs.filter (Prioritizer.inTier .TIER2_IMPORTANT),
       acc.t3 ++ vs.filter (Prioritizer.inTier .TIER3_CLEANUP)⟩ := by
  induction vs generalizing acc with
  | nil => simp
  | cons v vs ih =>
    simp only [List.foldl_cons, List.filter_cons, ih]
    cases h : Prioritizer.tierKeyOf v <;>
      simp [Prioritizer.classifyStep, Prioritizer.inTier, h,
        List.append_assoc]

lemma classify_filter (vs : List Violation) :
    Prioritizer.classifyByTier vs =
      ⟨vs.filter (Prioritizer.inTier .TIER1_CRITICAL),
       vs.filter (Prioritizer.inTier .TIER2_IMPORTANT),
       vs.filter (Prioritizer.inTier .TIER3_CLEANUP)⟩ := by
  simpa [Prioritizer.classifyByTier] using classify_go vs ⟨[], [], []⟩

lemma perm_cons_mid1 {α : Type} (v : α) (l1 l2 l3 vs : List α)
    (h : (l1 ++ l2 ++ l3).Perm vs) :
    (l1 ++ (v :: l2) ++ l3).Perm (v :: vs) := by
  have e : l1 ++ (v :: l2) ++ l3 = l1 ++ (v :: (l2 ++ l3)) := by simp
  rw [e]
  refine List.Perm.trans List.perm_middle ?_
  refine List.Perm.cons v ?_
  simpa [List.append_assoc] using h

lemma perm_cons_mid2 {α : Type} (v : α) (l1 l2 l3 vs : List α)
    (h : (l1 ++ l2 ++ l3).Perm vs) :
    (l1 ++ l2 ++ (v :: l3)).Perm (v :: vs) := by
  refine List.Perm.trans List.perm_middle ?_
  exact List.Perm.cons v h

lemma three_filter_perm (vs : List Violation) :
    (vs.filter (Prioritizer.inTier .TIER1_CRITICAL) ++
      vs.filter (Prioritizer.inTier .TIER2_IMPORTANT) ++
      vs.filter (Prioritizer.inTier .TIER3_CLEANUP)).Perm vs := by
  induction vs with
  | nil => simp
  | cons v vs ih =>
    cases h : Prioritizer.tierKeyOf v
    · have e1 : Prioritizer.inTier .TIER1_CRITICAL v = true := by
        simp [Prioritizer.inTier, h]
      have e2 : Prioritizer.inTier .TIER2_IMPORTANT v = false := by
        simp [Prioritizer.inTier, h]
      have e3 : Prioritizer.inTier .TIER3_CLEANUP v = false := by
        simp [Prioritizer.inTier, h]
      simp only [List.filter_cons, e1, e2, e3, if_true,
        Bool.false_eq_true, if_false, List.cons_append]
      exact List.Perm.cons v ih
    · have e1 : Prioritizer.inTier .TIER1_CRITICAL v = false := by
        simp [Prioritizer.inTier, h]
      have e2 : Prioritizer.inTier .TIER2_IMPORTANT v = true := by
        simp [Prioritizer.inTier, h]
      have e3 : Prioritizer.inTier .TIER3_CLEANUP v = false := by
        simp [Prioritizer.inTier, h]
      simp only [List.filter_cons, e1, e2, e3, if_true,
        Bool.false_eq_true, if_false]
      exact perm_cons_mid1 v _ _ _ _ ih
    · have e1 : Prioritizer.inTier .TIER1_CRITICAL v = false := by
        simp [Prioritizer.inTier, h]
      have e2 : Prioritizer.inTier .TIER2_IMPORTANT v = false := by
        simp [Prioritizer.inTier, h]
      have e3 : Prioritizer.inTier .TIER3_CLEANUP v = true := by
        simp [Prioritizer.inTier, h]
      simp only [List.filter_cons, e1, e2, e3, if_true,
        Bool.false_eq_true, if_false]
      exact perm_cons_mid2 v _ _ _ _ ih

/-! ## Replacing a matched prefix -/

lemma isPre_take (s : List Char) (n : Nat) : isPre (s.take n) s = true := by
  induction s generalizing n with
  | nil => cases n <;> rfl
  | cons c cs ih =>
    cases n with
    | zero => rfl
    | succ n => simpa [isPre] using ih n

lemma replaceFirst_isPre (p r s : List Char) (h : isPre p s = true) :
    replaceFirst p r s = r ++ s.drop p.length := by
  cases s with
  | nil =>
    cases p with
    | nil => rfl
    | cons a as => simp [isPre] at h
  | cons c cs =>
    unfold replaceFirst findSub
    rw [if_pos h]
    simp

lemma drop_take_len (s : List Char) (n : Nat) :
    s.drop ((s.take n).length) = s.drop n := by
  rcases le_total n s.length with h | h
  · rw [List.length_take, Nat.min_eq_left h]
  · rw [List.length_take, Nat.min_eq_right h, List.drop_length,
      List.drop_eq_nil_of_le h]

lemma replaceFirst_take (s : List Char) (n : Nat) (r : List Char) :
    replaceFirst (s.take n) r s = r ++ s.drop n := by
  rw [replaceFirst_isPre _ _ _ (isPre_take s n), drop_take_len]

/-! ## Verifier rollback: loop invariants -/

lemma backupPath_len (p : List Char) :
    (Verifier.backupPath p).length = p.length + 7 := by
  rw [Verifier.backupPath, List.length_append]
  rfl

lemma backupPath_ne_self (p : List Char) : Verifier.backupPath p ≠ p := by
  intro h
  have h2 := congrArg List.length h
  rw [backupPath_len] at h2
  omega

lemma backupPath_inj {p q : List Char}
    (h : Verifier.backupPath p = Verifier.backupPath q) : p = q := by
  have := List.append_cancel_right (by
    simpa [Verifier.backupPath] using h :
      p ++ lstr ".backup" = q ++ lstr ".backup")
  exact this

/-- Processing a list of files touches only those files and their
backup paths. -/
lemma verifyFiles_fs_preserve (ofv nfv : List (List Char × List Violation))
    (files : List (List Char)) (st : Verifier.VerifyState) (p : List Char)
    (h : ∀ g ∈ files, p ≠ g ∧ p ≠ Verifier.backupPath g) :
    (Verifier.verifyFiles ofv nfv files st).fs p = st.fs p := by
  induction files generalizing st with
  | nil => rfl
  | cons g rest ih =>
    have hg := h g (List.mem_cons_self g rest)
    have hrest : ∀ x ∈ rest, p ≠ x ∧ p ≠ Verifier.backupPath x :=
      fun x hx => h x (List.mem_cons_of_mem g hx)
    simp only [Verifier.verifyFiles]
    split
    · exact ih st hrest
    · rw [ih _ hrest]
      show (Verifier.rollbackFile st.fs g).1 p = st.fs p
      unfold Verifier.rollbackFile
      cases hr : st.fs (Verifier.backupPath g) with
      | none => rfl
      | some c =>
        show fsErase (fsSet st.fs g c) (Verifier.backupPath g) p = st.fs p
        unfold fsErase fsSet
        rw [if_neg hg.2, if_neg hg.1]

/-- Rollback entries are only appended by the loop. -/
lemma verifyFiles_rollbacks_mono (ofv nfv : List (List Char × List Violation))
    (files : List (List Char)) (st : Verifier.VerifyState)
    (e : List Char × List Char × Nat) (he : e ∈ st.rollbacks) :
    e ∈ (Verifier.verifyFiles ofv nfv files st).rollbacks := by
  induction files generalizing st with
  | nil => exact he
  | cons g rest ih =>
    simp only [Verifier.verifyFiles]
    split
    · exact ih st he
    · apply ih
      show e ∈ (if (Verifier.rollbackFile st.fs g).2 then _ else _)
      split
      · exact List.mem_append_left _ he
      · exact he

/-- Walking the updated files rolls back a file with introduced
regressions: its content becomes the backup content, the backup entry is
deleted, and a rollback entry with the regression count is recorded -
provided the file list has no duplicates, no listed file is another
backup path of another listed file, and the backup exists. -/
lemma verifyFiles_rollback_spec (ofv nfv : List (List Char × List Violation))
    (files : List (List Char)) (st : Verifier.VerifyState)
    (f : List Char) (b : List Char)
    (hnd : files.Nodup)
    (hnb : ∀ x ∈ files, ∀ g ∈ files, g ≠ Verifier.backupPath x)
    (hf : f ∈ files)
    (hb : st.fs (Verifier.backupPath f) = some b)
    (hreg : Verifier.findIntroducedViolations (ApexFixer.lookupFV ofv f)
      (ApexFixer.lookupFV nfv f) ≠ []) :
    (Verifier.verifyFiles ofv nfv files st).fs f = some b ∧
    (Verifier.verifyFiles ofv nfv files st).fs (Verifier.backupPath f) =
      none ∧
    (f, lstr "Introduced new violations",
      (Verifier.findIntroducedViolations (ApexFixer.lookupFV ofv f)
        (ApexFixer.lookupFV nfv f)).length) ∈
      (Verifier.verifyFiles ofv nfv files st).rollbacks := by
  induction files generalizing st with
  | nil => cases hf
  | cons g rest ih =>
    have hndr : rest.Nodup := hnd.of_cons
    have hgr : g ∉ rest := (List.nodup_cons.mp hnd).1
    rcases List.mem_cons.mp hf with hfg | hfr
    · subst hfg
      have hie : (Verifier.findIntroducedViolations
          (ApexFixer.lookupFV ofv f) (ApexFixer.lookupFV nfv f)).isEmpty =
          false := by
        rcases hI : Verifier.findIntroducedViolations
            (ApexFixer.lookupFV ofv f) (ApexFixer.lookupFV nfv f) with
          _ | ⟨a, as⟩
        · exact absurd hI hreg
        · rfl
      simp only [Verifier.verifyFiles, hie, Bool.false_eq_true, if_false]
      have hrb : Verifier.rollbackFile st.fs f =
          (fsErase (fsSet st.fs f b) (Verifier.backupPath f), true) := by
        unfold Verifier.rollbackFile
        rw [hb]
      rw [hrb]
      simp only [if_true]
      have hpre1 : ∀ x ∈ rest, f ≠ x ∧ f ≠ Verifier.backupPath x := by
        intro x hx
        constructor
        · intro he
          exact hgr (he ▸ hx)
        · exact hnb x (List.mem_cons_of_mem f hx) f (List.mem_cons_self f rest)
      have hpre2 : ∀ x ∈ rest,
          Verifier.backupPath f ≠ x ∧
          Verifier.backupPath f ≠ Verifier.backupPath x := by
        intro x hx
        constructor
        · intro he
          exact hnb f (List.mem_cons_self f rest) x
            (List.mem_cons_of_mem f hx) he.symm
        · intro he
          exact hgr (backupPath_inj he ▸ hx)
      refine ⟨?_, ?_, ?_⟩
      · rw [verifyFiles_fs_preserve _ _ _ _ _ hpre1]
        show fsErase (fsSet st.fs f b) (Verifier.backupPath f) f = some b
        unfold fsErase fsSet
        rw [if_neg (Ne.symm (backupPath_ne_self f)), if_pos rfl]
      · rw [verifyFiles_fs_preserve _ _ _ _ _ hpre2]
        show fsErase (fsSet st.fs f b) (Verifier.backupPath f)
          (Verifier.backupPath f) = none
        unfold fsErase
        rw [if_pos rfl]
      · apply verifyFiles_rollbacks_mono
        exact List.mem_append_right _ (List.mem_singleton.mpr rfl)
    · have hnbr : ∀ x ∈ rest, ∀ g2 ∈ rest, g2 ≠ Verifier.backupPath x :=
        fun x hx g2 hg2 =>
          hnb x (List.mem_cons_of_mem g hx) g2 (List.mem_cons_of_mem g hg2)
      have hfg : f ≠ g := fun he => hgr (he ▸ hfr)
      simp only [Verifier.verifyFiles]
      split
      · exact ih st hndr hnbr hfr hb
      · refine ih _ hndr hnbr hfr ?_
        show (Verifier.rollbackFile st.fs g).1 (Verifier.backupPath f) =
          some b
        unfold Verifier.rollbackFile
        cases hr : st.fs (Verifier.backupPath g) with
        | none => exact hb
        | some c =>
          show fsErase (fsSet st.fs g c) (Verifier.backupPath g)
            (Verifier.backupPath f) = some b
          unfold fsErase fsSet
          rw [if_neg (fun he => hfg (backupPath_inj he)),
            if_neg (Ne.symm (hnb f hf g (List.mem_cons_self g rest)))]
          exact hb

/-! ## Theorems -/

/-- Claim C8: every rule check is a pure function of `(filePath, content)`
in this embedding, mirroring that each JS rule builds its regular
expressions locally per call and keeps no state across calls; hence
scanning unchanged content twice yields identical finding lists (same
rule, line, column and description per instance, in the same order). -/
theorem rules_deterministic (filePath content : List Char) :
    ApexCRUDViolationRule.check filePath content =
      ApexCRUDViolationRule.check filePath content ∧
    ApexSharingViolationRule.check filePath content =
      ApexSharingViolationRule.check filePath content ∧
    AvoidDebugStatementsRule.check filePath content =
      AvoidDebugStatementsRule.check filePath content ∧
    NoTrailingWhitespaceRule.check filePath content =
      NoTrailingWhitespaceRule.check filePath content ∧
    ApexSOQLInjectionRule.check filePath content =
      ApexSOQLInjectionRule.check filePath content ∧
    CognitiveComplexityRule.check filePath content =
      CognitiveComplexityRule.check filePath content :=
  ⟨rfl, rfl, rfl, rfl, rfl, rfl⟩

/-- Claim C9: an auto-fixable finding whose rule is not banned from
auto-fix but has no registered strategy leaves the fixer state untouched:
it is recorded neither as fixed nor as failed. -/
theorem missing_strategy_silently_dropped (st : ApexFixer.FixerState)
    (v : Violation) (h1 : v.autoFixable = true)
    (h2 : ApexFixer.nonAutoFixableRules.contains v.rule = false)
    (h3 : ApexFixer.fixStrategies v.rule = none) :
    ApexFixer.applyStep st v = st := by
  have h2m : v.rule ∉ ApexFixer.nonAutoFixableRules := by
    simpa using h2
  simp [ApexFixer.applyStep, h1, h2m, h3]

/-- Witness for C9 at the cleanup-tier rule `MissingApexDoc`, which is
listed in `tier3Rules` but has no strategy entry. -/
theorem missing_strategy_silently_dropped_witness :
    ApexFixer.applyStep ⟨lstr "x;", false, [], []⟩
      { rule := lstr "MissingApexDoc", severity := lstr "Low",
        filePath := lstr "A.cls", line := 1, column := 1,
        description := [], autoFixable := true } =
      ⟨lstr "x;", false, [], []⟩ :=
  missing_strategy_silently_dropped _ _ rfl (by decide) (by decide)

/-- Claim C10: every fix strategy rejects an out-of-range line number
(non-positive, or beyond the number of lines of the split content) with
the `Invalid line number` failure, leaving the content untouched. -/
theorem fix_strategies_invalid_line (content : List Char) (v : Violation)
    (h : v.line ≤ 0 ∨ ((splitNl content).length : Int) < v.line) :
    CrudFixJs.apply content v = .err (lstr "Invalid line number") ∧
    SharingFix.apply content v = .err (lstr "Invalid line number") ∧
    WhitespaceFix.apply content v = .err (lstr "Invalid line number") ∧
    DebugFix.apply content v = .err (lstr "Invalid line number") := by
  have hc : v.line - 1 < 0 ∨ ((splitNl content).length : Int) ≤ v.line - 1 := by
    omega
  refine ⟨?_, ?_, ?_, ?_⟩
  · simp only [CrudFixJs.apply]; rw [if_pos hc]
  · simp only [SharingFix.apply]; rw [if_pos hc]
  · simp only [WhitespaceFix.apply]; rw [if_pos hc]
  · simp only [DebugFix.apply]; rw [if_pos hc]

/-- Witness for C10 at line number 0 of a two-line content. -/
theorem fix_strategies_invalid_line_witness :
    CrudFixJs.apply (lstr "a\nb")
      { rule := lstr "ApexCRUDViolation", severity := lstr "Critical",
        filePath := lstr "A.cls", line := 0, column := 1,
        description := [], autoFixable := true } =
      .err (lstr "Invalid line number") :=
  (fix_strategies_invalid_line (lstr "a\nb") _ (by decide)).1

/-- Claim C1: for a file in `updatedFiles` for which the post-fix
re-scan shows at least one introduced regression (a new-scan finding
with no pre-fix finding of the same rule within 5 lines in the pre-fix set
of that file), `verify` restores the file byte-for-byte from its
`.backup` copy, deletes the backup entry, and records a rollback entry
carrying the reason and the regression count.  The hypotheses reflect
the pipeline invariants: the updated-files list (built from a JS `Set`)
has no duplicates, no updated file is the backup
path of another updated file, and the backup created by the fixer exists. -/
theorem verify_rollback_on_regression (paths : List (List Char))
    (fs : FSMap) (orig : ScanResults) (fr : ApexFixer.FixOutput)
    (f b : List Char)
    (hnd : fr.updatedFiles.Nodup)
    (hnb : ∀ x ∈ fr.updatedFiles, ∀ g ∈ fr.updatedFiles,
      g ≠ Verifier.backupPath x)
    (hf : f ∈ fr.updatedFiles)
    (hb : fs (Verifier.backupPath f) = some b)
    (hreg : Verifier.findIntroducedViolations
      (ApexFixer.lookupFV orig.fileViolations f)
      (ApexFixer.lookupFV
        (ApexScanner.scan false paths fs).fileViolations f) ≠ []) :
    (Verifier.verify paths fs orig fr).fs f = some b ∧
    (Verifier.verify paths fs orig fr).fs (Verifier.backupPath f) = none ∧
    (f, lstr "Introduced new violations",
      (Verifier.findIntroducedViolations
        (ApexFixer.lookupFV orig.fileViolations f)
        (ApexFixer.lookupFV
          (ApexScanner.scan false paths fs).fileViolations f)).length) ∈
      (Verifier.verify paths fs orig fr).rollbacks := by
  have hne : fr.updatedFiles.isEmpty = false := by
    rcases hu : fr.updatedFiles with _ | ⟨a, as⟩
    · rw [hu] at hf
      cases hf
    · rfl
  simp only [Verifier.verify, hne, Bool.false_eq_true, if_false]
  exact verifyFiles_rollback_spec _ _ _ _ f b hnd hnb hf hb hreg

/-- Witness for C1: a one-file tree whose fixed content triggers a CRUD
finding absent from the pre-fix baseline is restored from its backup,
the backup is removed, and the rollback entry carries the count 1. -/
theorem verify_rollback_on_regression_witness :
    (Verifier.verify [lstr "A.cls"]
      (fun p => if p = lstr "A.cls" then some (lstr "insert a;")
        else if p = lstr "A.cls.backup" then some (lstr "orig content")
        else none)
      { filesScanned := 1, totalViolations := 0, violations := [],
        fileViolations := [], violationsByRule := [],
        violationsBySeverity := [] }
      ⟨[], [], [lstr "A.cls"]⟩).fs (lstr "A.cls") =
      some (lstr "orig content") := by
  have h := verify_rollback_on_regression [lstr "A.cls"]
    (fun p => if p = lstr "A.cls" then some (lstr "insert a;")
      else if p = lstr "A.cls.backup" then some (lstr "orig content")
      else none)
    { filesScanned := 1, totalViolations := 0, violations := [],
      fileViolations := [], violationsByRule := [],
      violationsBySeverity := [] }
    ⟨[], [], [lstr "A.cls"]⟩ (lstr "A.cls") (lstr "orig content")
    (by decide) (by decide) (by decide) (by decide) (by decide)
  exact h.1

/-- Claim C7: on a valid target line, the sharing fix fails with the
cannot-parse reason exactly when the line does not match the structural
class/interface declaration pattern; on a matching line it succeeds and
rewrites only that line, inserting `with sharing` between the visibility
keyword and the optional abstract keyword while keeping the visibility,
the abstract modifier text, the class or interface keyword, the class
name and the unmatched rest of the line. -/
theorem sharing_fix_spec (content : List Char) (v : Violation)
    (line : List Char) (h1 : 1 ≤ v.line)
    (h2 : v.line ≤ ((splitNl content).length : Int))
    (hline : (splitNl content).getD (v.line - 1).toNat [] = line) :
    (parseClassDecl line = none →
      SharingFix.apply content v =
        .err (lstr "Cannot parse class declaration")) ∧
    (∀ g, parseClassDecl line = some g →
      SharingFix.apply content v =
        .ok (joinNl ((splitNl content).set (v.line - 1).toNat
            (g.indentation ++ g.visibility ++ lstr " with sharing " ++
              g.abstractKw ++ g.classType ++ lstr " " ++ g.className ++
              line.drop g.matchLen)))
          (lstr "Added \x27with sharing\x27 to class " ++ g.className)) := by
  have hguard :
      ¬(v.line - 1 < 0 ∨ ((splitNl content).length : Int) ≤ v.line - 1) := by
    omega
  constructor
  · intro hp
    simp only [SharingFix.apply]
    rw [if_neg hguard, hline, hp]
  · intro g hp
    simp only [SharingFix.apply]
    rw [if_neg hguard, hline, hp]
    simp only [replaceFirst_take, List.append_assoc]

/-- Witness for C7 at spec scenario B: a public class `Foo` with no
sharing keyword is rewritten with the sharing modifier inserted after
the visibility. -/
theorem sharing_fix_spec_witness :
    SharingFix.apply (lstr "public class Foo \x7b")
      { rule := lstr "ApexSharingViolation", severity := lstr "High",
        filePath := lstr "A.cls", line := 1, column := 1,
        description := [], autoFixable := true } =
      .ok (lstr "public with sharing class Foo \x7b")
        (lstr "Added \x27with sharing\x27 to class Foo") := by
  have h := (sharing_fix_spec (lstr "public class Foo \x7b")
      { rule := lstr "ApexSharingViolation", severity := lstr "High",
        filePath := lstr "A.cls", line := 1, column := 1,
        description := [], autoFixable := true }
      (lstr "public class Foo \x7b") (by decide) (by decide)
      (by decide)).2
    ⟨[], lstr "public", [], lstr "class", lstr "Foo", 16⟩ (by decide)
  rw [h]
  decide

/-- Claim C3: for a read/query (SOQL) finding on a valid target line, the
part_000 CRUD strategy fails with the distinct already-present reason
when the line carries the security-enforcing clause; otherwise it either
succeeds by injecting the clause at the first closing bracket of a
pattern-matched single-line query or fails with the cannot-parse reason.
No hypothesis constrains `context.sobject` - the read branch never
consults it. -/
theorem crud_read_fix_spec (content : List Char) (v : Violation)
    (line : List Char) (h1 : 1 ≤ v.line)
    (h2 : v.line ≤ ((splitNl content).length : Int))
    (hline : (splitNl content).getD (v.line - 1).toNat [] = line)
    (hop : Part000.opTypeOf v line = lstr "SOQL" ∨
      Part000.opTypeOf v line = lstr "read") :
    (testWSE line = true →
      Part000.apply content v =
        .err (lstr "WITH SECURITY_ENFORCED already present")) ∧
    (testWSE line = false → testSelBr line = false →
      Part000.apply content v =
        .err (lstr "Could not parse SOQL query")) ∧
    (testWSE line = false → testSelBr line = true →
      Part000.apply content v =
        .ok (joinNl ((splitNl content).set (v.line - 1).toNat
            (replaceFirst [']'] (lstr " WITH SECURITY_ENFORCED]") line)))
          (lstr "Added WITH SECURITY_ENFORCED to SOQL query")) := by
  have hguard :
      ¬(v.line - 1 < 0 ∨ ((splitNl content).length : Int) ≤ v.line - 1) := by
    omega
  refine ⟨?_, ?_, ?_⟩
  · intro hw
    simp only [Part000.apply]
    rw [if_neg hguard, hline, if_pos hop, if_pos hw]
  · intro hw hs
    simp only [Part000.apply]
    rw [if_neg hguard, hline, if_pos hop]
    simp [hw, hs]
  · intro hw hs
    simp only [Part000.apply]
    rw [if_neg hguard, hline, if_pos hop]
    simp [hw, hs]

/-- Witness for C3: a single-line bracketed query with no security
clause and no resolvable SObject receives the clause at its closing
bracket. -/
theorem crud_read_fix_spec_witness :
    Part000.apply (lstr "x = [SELECT Id FROM Account];")
      { rule := lstr "ApexCRUDViolation", severity := lstr "Critical",
        filePath := lstr "A.cls", line := 1, column := 5,
        description := [], autoFixable := true,
        context := some { operation := some (lstr "SOQL") } } =
      .ok (lstr "x = [SELECT Id FROM Account WITH SECURITY_ENFORCED];")
        (lstr "Added WITH SECURITY_ENFORCED to SOQL query") := by
  have h := (crud_read_fix_spec (lstr "x = [SELECT Id FROM Account];")
      { rule := lstr "ApexCRUDViolation", severity := lstr "Critical",
        filePath := lstr "A.cls", line := 1, column := 5,
        description := [], autoFixable := true,
        context := some { operation := some (lstr "SOQL") } }
      (lstr "x = [SELECT Id FROM Account];") (by decide) (by decide)
      (by decide) (Or.inl (by decide))).2.2 (by decide) (by decide)
  rw [h]
  decide

/-- Claim C5: for a write-operation CRUD finding on a valid target line,
the part_000 strategy fails with the explicit manual-fix-required reason
when `context` has no (or an empty, hence unresolvable) SObject name;
otherwise it succeeds, inserting the operation-specific access-check
lines (isCreateable for insert, isUpdateable for update, isDeletable for
delete, both isCreateable and isUpdateable for upsert), each prefixed
with the leading whitespace of the target line, immediately before the target
line, leaving all other lines unchanged. -/
theorem crud_write_fix_spec (content : List Char) (v : Violation)
    (line : List Char) (ctx : Context) (op : List Char)
    (h1 : 1 ≤ v.line) (h2 : v.line ≤ ((splitNl content).length : Int))
    (hline : (splitNl content).getD (v.line - 1).toNat [] = line)
    (hctx : v.context = some ctx) (hopf : ctx.operation = some op)
    (hw : op = lstr "insert" ∨ op = lstr "update" ∨ op = lstr "delete" ∨
      op = lstr "upsert") :
    (ctx.sobject = none →
      Part000.apply content v =
        .err (lstr "Cannot determine SObject type - manual fix required")) ∧
    (ctx.sobject = some [] →
      Part000.apply content v =
        .err (lstr "Cannot determine SObject type - manual fix required")) ∧
    (∀ s, ctx.sobject = some s → s ≠ [] →
      Part000.apply content v =
        .ok (joinNl ((splitNl content).take (v.line - 1).toNat ++
            (splitNl
              (if op = lstr "insert" then
                lstr "if (!Schema.sObjectType." ++ s ++
                  lstr ".isCreateable()) \x7b\n    throw new System.NoAccessException();\n\x7d"
              else if op = lstr "update" then
                lstr "if (!Schema.sObjectType." ++ s ++
                  lstr ".isUpdateable()) \x7b\n    throw new System.NoAccessException();\n\x7d"
              else if op = lstr "delete" then
                lstr "if (!Schema.sObjectType." ++ s ++
                  lstr ".isDeletable()) \x7b\n    throw new System.NoAccessException();\n\x7d"
              else
                lstr "if (!Schema.sObjectType." ++ s ++
                  lstr ".isCreateable() || !Schema.sObjectType." ++ s ++
                  lstr ".isUpdateable()) \x7b\n    throw new System.NoAccessException();\n\x7d")).map
              (fun l => line.takeWhile jsIsSpace ++ l) ++
            (splitNl content).drop (v.line - 1).toNat))
          (lstr "Added " ++ op ++ lstr " security check for " ++ s)) := by
  have hguard :
      ¬(v.line - 1 < 0 ∨ ((splitNl content).length : Int) ≤ v.line - 1) := by
    omega
  have hne : op.isEmpty = false := by
    rcases hw with h | h | h | h <;> subst h <;> decide
  have hopty : Part000.opTypeOf v line = op := by
    simp [Part000.opTypeOf, hctx, hopf, hne]
  have hnr : ¬(op = lstr "SOQL" ∨ op = lstr "read") := by
    rcases hw with h | h | h | h <;> subst h <;> decide
  refine ⟨?_, ?_, ?_⟩
  · intro hs
    simp only [Part000.apply]
    rw [if_neg hguard, hline, hopty, if_neg hnr, hctx]
    simp [hs]
  · intro hs
    simp only [Part000.apply]
    rw [if_neg hguard, hline, hopty, if_neg hnr, hctx]
    simp [hs]
  · intro s hs hsne
    have hse : s.isEmpty = false := by
      cases s with
      | nil => exact absurd rfl hsne
      | cons a as => rfl
    simp only [Part000.apply]
    rw [if_neg hguard, hline, hopty, if_neg hnr, hctx]
    rcases hw with h | h | h | h <;> subst h
    · have hg : Part000.generateSecurityCheck s (lstr "insert") = some
          (lstr "if (!Schema.sObjectType." ++ s ++
            lstr ".isCreateable()) \x7b\n    throw new System.NoAccessException();\n\x7d") := by
        unfold Part000.generateSecurityCheck
        rw [if_pos rfl]
      simp [hs, hse, hg, Part000.getIndentation]
    · have hg : Part000.generateSecurityCheck s (lstr "update") = some
          (lstr "if (!Schema.sObjectType." ++ s ++
            lstr ".isUpdateable()) \x7b\n    throw new System.NoAccessException();\n\x7d") := by
        unfold Part000.generateSecurityCheck
        rw [if_neg (by decide), if_pos rfl]
      simp [hs, hse, hg, Part000.getIndentation,
        (by decide : lstr "update" ≠ lstr "insert")]
    · have hg : Part000.generateSecurityCheck s (lstr "delete") = some
          (lstr "if (!Schema.sObjectType." ++ s ++
            lstr ".isDeletable()) \x7b\n    throw new System.NoAccessException();\n\x7d") := by
        unfold Part000.generateSecurityCheck
        rw [if_neg (by decide), if_neg (by decide), if_pos rfl]
      simp [hs, hse, hg, Part000.getIndentation,
        (by decide : lstr "delete" ≠ lstr "insert"),
        (by decide : lstr "delete" ≠ lstr "update")]
    · have hg : Part000.generateSecurityCheck s (lstr "upsert") = some
          (lstr "if (!Schema.sObjectType." ++ s ++
            lstr ".isCreateable() || !Schema.sObjectType." ++ s ++
            lstr ".isUpdateable()) \x7b\n    throw new System.NoAccessException();\n\x7d") := by
        unfold Part000.generateSecurityCheck
        rw [if_neg (by decide), if_neg (by decide), if_neg (by decide),
          if_pos rfl]
      simp [hs, hse, hg, Part000.getIndentation,
        (by decide : lstr "upsert" ≠ lstr "insert"),
        (by decide : lstr "upsert" ≠ lstr "update"),
        (by decide : lstr "upsert" ≠ lstr "delete")]

/-- Witness for C5 at spec scenario A: `insert acc;` with entity
`Account` receives an `isCreateable` guard immediately above the line,
indented like the line. -/
theorem crud_write_fix_spec_witness :
    Part000.apply (lstr "    insert acc;")
      { rule := lstr "ApexCRUDViolation", severity := lstr "Critical",
        filePath := lstr "A.cls", line := 1, column := 5,
        description := [], autoFixable := true,
        context := some { operation := some (lstr "insert"),
                          sobject := some (lstr "Account") } } =
      .ok (lstr "    if (!Schema.sObjectType.Account.isCreateable()) \x7b\n        throw new System.NoAccessException();\n    \x7d\n    insert acc;")
        (lstr "Added insert security check for Account") := by
  have h := (crud_write_fix_spec (lstr "    insert acc;")
      { rule := lstr "ApexCRUDViolation", severity := lstr "Critical",
        filePath := lstr "A.cls", line := 1, column := 5,
        description := [], autoFixable := true,
        context := some { operation := some (lstr "insert"),
                          sobject := some (lstr "Account") } }
      (lstr "    insert acc;")
      { operation := some (lstr "insert"), sobject := some (lstr "Account") }
      (lstr "insert") (by decide) (by decide) (by decide) rfl rfl
      (Or.inl rfl)).2.2 (lstr "Account") rfl (by decide)
  rw [h]
  decide

/-- A mapped critical-rule finding, used by the C4 witness. -/
def cexWitViol : Violation :=
  { rule := lstr "ApexSOQLInjection", severity := lstr "Critical",
    filePath := lstr "A.cls", line := 1, column := 1,
    description := [], autoFixable := false }

/-- An unmapped-rule finding classified by its severity, used by the C4
witness. -/
def cexWitViol2 : Violation :=
  { rule := lstr "SomeNewRule", severity := lstr "Moderate",
    filePath := lstr "A.cls", line := 2, column := 1,
    description := [], autoFixable := false }

/-- Claim C4: the three tier buckets of `classifyByTier` form a
partition of the input findings: each bucket is the sublist of findings
the rule-to-tier table (with severity fallback for unmapped rules)
sends to that tier, their concatenation is a permutation of the input,
and no finding value lies in two buckets. -/
theorem classifyByTier_partition (vs : List Violation) :
    ((Prioritizer.classifyByTier vs).t1 ++
      (Prioritizer.classifyByTier vs).t2 ++
      (Prioritizer.classifyByTier vs).t3).Perm vs ∧
    (Prioritizer.classifyByTier vs).t1 =
      vs.filter (Prioritizer.inTier .TIER1_CRITICAL) ∧
    (Prioritizer.classifyByTier vs).t2 =
      vs.filter (Prioritizer.inTier .TIER2_IMPORTANT) ∧
    (Prioritizer.classifyByTier vs).t3 =
      vs.filter (Prioritizer.inTier .TIER3_CLEANUP) ∧
    (∀ v, ¬(v ∈ (Prioritizer.classifyByTier vs).t1 ∧
      v ∈ (Prioritizer.classifyByTier vs).t2)) ∧
    (∀ v, ¬(v ∈ (Prioritizer.classifyByTier vs).t1 ∧
      v ∈ (Prioritizer.classifyByTier vs).t3)) ∧
    (∀ v, ¬(v ∈ (Prioritizer.classifyByTier vs).t2 ∧
      v ∈ (Prioritizer.classifyByTier vs).t3)) := by
  have hc := classify_filter vs
  refine ⟨?_, ?_, ?_, ?_, ?_, ?_, ?_⟩
  · rw [hc]; exact three_filter_perm vs
  · rw [hc]
  · rw [hc]
  · rw [hc]
  · intro v ⟨hm1, hm2⟩
    rw [hc] at hm1 hm2
    have e1 := List.of_mem_filter hm1
    have e2 := List.of_mem_filter hm2
    simp [Prioritizer.inTier] at e1 e2
    rw [e1] at e2
    exact absurd e2 (by decide)
  · intro v ⟨hm1, hm2⟩
    rw [hc] at hm1 hm2
    have e1 := List.of_mem_filter hm1
    have e2 := List.of_mem_filter hm2
    simp [Prioritizer.inTier] at e1 e2
    rw [e1] at e2
    exact absurd e2 (by decide)
  · intro v ⟨hm1, hm2⟩
    rw [hc] at hm1 hm2
    have e1 := List.of_mem_filter hm1
    have e2 := List.of_mem_filter hm2
    simp [Prioritizer.inTier] at e1 e2
    rw [e1] at e2
    exact absurd e2 (by decide)

/-- Witness for C4: a two-finding input (one mapped critical rule, one
unmapped rule falling back to its severity) is split with no finding in
two buckets. -/
theorem classifyByTier_partition_witness :
    ¬(cexWitViol ∈ (Prioritizer.classifyByTier
        [cexWitViol, cexWitViol2]).t1 ∧
      cexWitViol ∈ (Prioritizer.classifyByTier
        [cexWitViol, cexWitViol2]).t2) :=
  (classifyByTier_partition [cexWitViol, cexWitViol2]).2.2.2.2.1 cexWitViol

/-- Claim C6: a query-injection finding is never in any auto-fixable
set: every finding emitted by the injection rule carries
`autoFixable = false`, the fixer lists the rule among the never-auto-fix
rules, and the fixer loop never hands such a finding to a strategy - the
working content and the fixed list are unchanged by its step. -/
theorem injection_never_autofixable :
    (∀ filePath content v,
      v ∈ ApexSOQLInjectionRule.check filePath content →
        v.autoFixable = false) ∧
    ApexFixer.nonAutoFixableRules.contains (lstr "ApexSOQLInjection") =
      true ∧
    (∀ (st : ApexFixer.FixerState) (v : Violation),
      v.rule = lstr "ApexSOQLInjection" →
      (ApexFixer.applyStep st v).content = st.content ∧
      (ApexFixer.applyStep st v).fixed = st.fixed ∧
      (ApexFixer.applyStep st v).modified = st.modified) := by
  refine ⟨?_, by decide, ?_⟩
  · intro fp c v hv
    simp only [ApexSOQLInjectionRule.check, List.mem_flatMap,
      List.mem_filterMap] at hv
    obtain ⟨p, -, m, -, hg⟩ := hv
    split at hg
    · cases hg
      rfl
    · cases hg
  · intro st v hr
    cases ha : v.autoFixable
    · simp [ApexFixer.applyStep, ha]
    · have hm : v.rule ∈ ApexFixer.nonAutoFixableRules := by
        rw [hr]; decide
      simp [ApexFixer.applyStep, ha, hm]

/-- Witness for C6: a concrete dynamic-query line with concatenated
quotes yields a finding that is not auto-fixable, and a finding with the
injection rule leaves the content of the fixer state unchanged. -/
theorem injection_never_autofixable_witness :
    ({ rule := lstr "ApexSOQLInjection", severity := lstr "Critical",
       filePath := lstr "A.cls", line := 1, column := 1,
       description := lstr "Dynamic SOQL with string concatenation detected - potential injection risk",
       autoFixable := false,
       context := some { lineContent := lstr "Database.query(q + \x27 LIMIT 1\x27);" } } :
         Violation).autoFixable = false ∧
    (ApexFixer.applyStep ⟨lstr "x;", false, [], []⟩
      { rule := lstr "ApexSOQLInjection", severity := lstr "Critical",
        filePath := lstr "A.cls", line := 1, column := 1,
        description := [], autoFixable := false }).content = lstr "x;" :=
  ⟨injection_never_autofixable.1 (lstr "A.cls")
      (lstr "Database.query(q + \x27 LIMIT 1\x27);") _ (by decide),
   (injection_never_autofixable.2.2 ⟨lstr "x;", false, [], []⟩ _ rfl).1⟩

/-- Claim C2 (counterexample): with two eligible findings on the same
line of the same file, the processed order produced by the fixer sort is
not strictly descending in line number. -/
def cexViolA : Violation :=
  { rule := lstr "AvoidDebugStatements", severity := lstr "Low",
    filePath := lstr "F.cls", line := 3, column := 1,
    description := [], autoFixable := true }

def cexViolB : Violation :=
  { rule := lstr "NoTrailingWhitespace", severity := lstr "Info",
    filePath := lstr "F.cls", line := 3, column := 9,
    description := [], autoFixable := true }

theorem sort_not_strictly_descending_cex :
    ApexFixer.strictDescByLine (ApexFixer.sortViolations
      (ApexFixer.lookupFV (ApexFixer.groupByFile [cexViolA, cexViolB])
        (lstr "F.cls"))) = false := by decide

/-- Claim C2 (amended): for every input list of eligible findings and
every file among them, the fixer processes the findings of that file in
non-increasing (descending) line order - a permutation of the findings of the
file, sorted so that the line of every later finding is less than or
equal to that of every earlier one, with ties keeping input order because JS sort is
stable - and each strategy application receives the working content
threaded through the fold from the previous successful fix. -/
theorem fix_order_descending (vs : List Violation) (fp content : List Char) :
    List.Sorted ApexFixer.lineGE (ApexFixer.sortViolations
      (ApexFixer.lookupFV (ApexFixer.groupByFile vs) fp)) ∧
    (ApexFixer.sortViolations
      (ApexFixer.lookupFV (ApexFixer.groupByFile vs) fp)).Perm
      (ApexFixer.lookupFV (ApexFixer.groupByFile vs) fp) ∧
    ApexFixer.processFile content
      (ApexFixer.lookupFV (ApexFixer.groupByFile vs) fp) =
      (ApexFixer.sortViolations
        (ApexFixer.lookupFV (ApexFixer.groupByFile vs) fp)).foldl
        ApexFixer.applyStep ⟨content, false, [], []⟩ :=
  ⟨List.sorted_insertionSort ApexFixer.lineGE _,
   List.perm_insertionSort ApexFixer.lineGE _, rfl⟩

end SF

